import Mathlib

/-!
# luamake: the bridge between GNU make and an embedded Lua interpreter

A shallow embedding of `lua_make.c`.  The C file is a thin adapter between two
external runtimes, so the embedding has three layers:

* the *data* the bridge touches: the Lua stack of the running frame, the global
  table, the heap of tables (only what the setup code needs), and a log of every
  call that leaves the bridge (to the host, to the diagnostic stream, into the
  Lua VM);
* the *external collaborators* (`World`): the host's expansion engine, the Lua
  VM running a function, and the Lua compiler.  They are arbitrary functions:
  every theorem holds for all of them;
* the *bridge functions* themselves, translated statement by statement from the
  C source on top of models of the Lua C API primitives they call.

Strings are sequences of bytes, one `Char` per byte, and carry no embedded null
byte, so that a Lua string and the C string at its address are the same text.
A `const char*` handed to the host is recorded in the log as that text.

The global table is a plain table (no metatable on it), and a host call answers
without rebinding globals: when the host, while it answers, calls back into the
bridge, that call works above the running frame and leaves the stack as it
found it, which is all the model keeps of it.

Behaviour that C leaves undefined (a NULL pointer given to `%s`, to
`gmk_expand` or to `lua_setglobal`, a read of `argv[0]` in an empty vector, a
stack index outside the frame) is the fault `Fault.undefined`; a Lua error
raised with no protected call around it in the modelled function is
`Fault.raised`.
-/

namespace LuaMake

/-! ## Data model -/

/-- The C functions the bridge hands to the interpreter (`lua_CFunction`). -/
inductive CFunction
  | lua_lookup
  | lua_eval
  | lua_expand
  | lua_export
  deriving DecidableEq

/-- The two entry points the bridge registers with the host (`gmk_func_ptr`). -/
inductive HostFn
  | dispatch
  | lua
  deriving DecidableEq

/-- A Lua value as the bridge sees it.  A number is carried by the text
`lua_tolstring` converts it to: the bridge never does arithmetic.  A Lua
function is a reference into the VM, a table a reference into the heap. -/
inductive Value
  | nil
  | boolean (b : Bool)
  | number (shown : String)
  | string (s : String)
  | table (ref : Nat)
  | func (ref : Nat)
  | cfunction (f : CFunction)
  deriving DecidableEq

/-- A source location of the host, `gmk_floc`.  `lineno` holds the value that
is assigned to the field. -/
structure gmk_floc where
  filenm : String
  lineno : Int
  deriving DecidableEq

/-- Every call that leaves the bridge, in the order it is made. -/
inductive Event
  | gmk_expand (text : String)
  | gmk_free (text : String)
  | gmk_alloc (size : Nat)
  | gmk_eval (text : String) (floc : Option gmk_floc)
  | gmk_add_function (name : String) (func : HostFn) (min max flags : Nat)
  | stderr (text : String)
  | loadstring (text : String)
  | pcall (f : Value) (args : List Value)
  deriving DecidableEq

/-- A table of the heap: its string-keyed fields (first binding wins) and the
reference of its metatable. -/
structure Table where
  fields : List (String × Value)
  metatable : Option Nat
  deriving DecidableEq

/-- The interpreter state the bridge works on: the stack of the running frame
(bottom first, so Lua index `i` is position `i - 1`), the globals (first binding
wins, an absent name is `nil`), the heap, and the log. -/
structure lua_State where
  stack : List Value
  globals : List (String × Value)
  heap : List Table
  log : List Event
  deriving DecidableEq

/-- How a function run by the VM ends: with its results or with a raised error
value, with the globals and heap it leaves behind and the calls out of the
bridge that were made while it ran. -/
structure Outcome where
  result : Except Value (List Value)
  globals : List (String × Value)
  heap : List Table
  events : List Event

/-- The external collaborators.  `expand` is the host's expansion engine (its
answer may depend on everything logged so far); `call` is the Lua VM running a
function value on positional arguments; `loadstring` is the Lua compiler,
answering with a function reference or with the compiler's message;
`newstate` is the globals and heap of a fresh interpreter with the standard
libraries loaded. -/
structure World where
  expand : List Event → String → String
  call : Value → List Value → List (String × Value) → List Table → List Event → Outcome
  loadstring : String → Except String Nat
  newstate : List (String × Value) × List Table

/-- What stops a bridge function short of its return. -/
inductive Fault
  | undefined
  | raised (e : Value)
  | argerror (arg : Nat)
  deriving DecidableEq

/-! ## Constants of the two APIs -/

/-- The flag of `gnumake.h` that tells the host not to expand the arguments. -/
def GMK_FUNC_NOEXPAND : Nat := 1

/-- The status `lua_pcall` answers with when the callee raised. -/
def LUA_ERRRUN : Int := 2

/-- The status `luaL_loadstring` answers with when compilation failed. -/
def LUA_ERRSYNTAX : Int := 3

/-- The character that marks expression sugar in the ad-hoc evaluator. -/
def backtick : Char := Char.ofNat 96

/-! ## The Lua C API primitives the bridge calls -/

/-- First binding of a key in an association list. -/
def assoc (k : String) : List (String × Value) → Value
  | [] => Value.nil
  | (k', v) :: rest => if k' = k then v else assoc k rest

/-- Position in the stack list of the slot a Lua index names: positive indices
count from the bottom, negative ones from the top. -/
def index2addr (n : Nat) (idx : Int) : Option Nat :=
  if 0 < idx then
    if idx.toNat ≤ n then some (idx.toNat - 1) else none
  else if idx < 0 ∧ (-idx).toNat ≤ n then some (n - (-idx).toNat)
  else none

/-- The value at a Lua index, when the index names a slot of the frame. -/
def index2value (st : lua_State) (idx : Int) : Option Value :=
  match index2addr st.stack.length idx with
  | none => none
  | some k => st.stack[k]?

/-- The string conversion of a value: strings and numbers have one. -/
def tostr : Value → Option String
  | Value.string s => some s
  | Value.number shown => some shown
  | _ => none

def lua_gettop (st : lua_State) : Nat := st.stack.length

/-- Sets the depth of the stack, for a non-negative index: cuts, or fills with
`nil`. -/
def lua_settop (st : lua_State) (n : Nat) : lua_State :=
  { st with stack := st.stack.take n ++ List.replicate (n - st.stack.length) Value.nil }

def push (st : lua_State) (v : Value) : lua_State :=
  { st with stack := st.stack ++ [v] }

def lua_pushliteral (st : lua_State) (s : String) : lua_State := push st (Value.string s)

def lua_pushstring (st : lua_State) (s : String) : lua_State := push st (Value.string s)

def lua_pushcfunction (st : lua_State) (f : CFunction) : lua_State := push st (Value.cfunction f)

def lua_isfunction (st : lua_State) (idx : Int) : Bool :=
  match index2value st idx with
  | some (Value.func _) => true
  | some (Value.cfunction _) => true
  | _ => false

/-- Converts the value at `idx` to a string in place and answers with the string
and its length, or with NULL (and length 0) when the value is neither a string
nor a number, or the index names no slot. -/
def lua_tolstring (st : lua_State) (idx : Int) : Option String × Nat × lua_State :=
  match index2addr st.stack.length idx with
  | none => (none, 0, st)
  | some k =>
    match st.stack[k]? with
    | none => (none, 0, st)
    | some v =>
      match tostr v with
      | none => (none, 0, st)
      | some s => (some s, s.length, { st with stack := st.stack.set k (Value.string s) })

def lua_tostring (st : lua_State) (idx : Int) : Option String × lua_State :=
  ((lua_tolstring st idx).1, (lua_tolstring st idx).2.2)

/-- Raises an argument error unless the value at `arg` is a string or a number
(which is converted in place). -/
def luaL_checkstring (st : lua_State) (arg : Nat) : Except Fault lua_State :=
  match lua_tolstring st arg with
  | (none, _, _) => Except.error (Fault.argerror arg)
  | (some _, _, st1) => Except.ok st1

/-- Moves the top value into position `idx`, shifting the values above up. -/
def lua_insert (st : lua_State) (idx : Int) : Except Fault lua_State :=
  match index2addr st.stack.length idx, st.stack.getLast? with
  | some k, some v =>
    Except.ok { st with stack := st.stack.dropLast.take k ++ v :: st.stack.dropLast.drop k }
  | _, _ => Except.error Fault.undefined

/-- Pops the top value and stores it at `idx`. -/
def lua_replace (st : lua_State) (idx : Int) : Except Fault lua_State :=
  match index2addr st.stack.length idx, st.stack.getLast? with
  | some k, some v => Except.ok { st with stack := (st.stack.set k v).dropLast }
  | _, _ => Except.error Fault.undefined

/-- The string conversions of a list of values, when all of them have one. -/
def tostrAll : List Value → Option (List String)
  | [] => some []
  | v :: rest =>
    match tostr v, tostrAll rest with
    | some s, some ss => some (s :: ss)
    | _, _ => none

/-- Replaces the top `n` values by their concatenation; raises when one of them
is neither a string nor a number. -/
def lua_concat (st : lua_State) (n : Nat) : Except Fault lua_State :=
  if st.stack.length < n then Except.error Fault.undefined
  else if n = 0 then Except.ok (push st (Value.string ""))
  else if n = 1 then Except.ok st
  else
    match tostrAll (st.stack.drop (st.stack.length - n)) with
    | none => Except.error (Fault.raised (Value.string "attempt to concatenate"))
    | some parts =>
      Except.ok { st with stack := st.stack.take (st.stack.length - n) ++
                                     [Value.string (parts.foldr (fun s r => s ++ r) "")] }

def lua_getglobal (st : lua_State) (name : String) : lua_State :=
  push st (assoc name st.globals)

/-- Pops the top value and binds it to the global `name`. -/
def lua_setglobal (st : lua_State) (name : String) : Except Fault lua_State :=
  match st.stack.getLast? with
  | some v =>
    Except.ok { st with stack := st.stack.dropLast, globals := (name, v) :: st.globals }
  | none => Except.error Fault.undefined

def lua_newtable (st : lua_State) : lua_State :=
  { st with stack := st.stack ++ [Value.table st.heap.length],
            heap := st.heap ++ [{ fields := [], metatable := none }] }

/-- Pops the top value and stores it in field `k` of the table at `idx`. -/
def lua_setfield (st : lua_State) (idx : Int) (k : String) : Except Fault lua_State :=
  match index2value st idx, st.stack.getLast? with
  | some (Value.table r), some v =>
    match st.heap[r]? with
    | some t =>
      Except.ok { st with stack := st.stack.dropLast,
                          heap := st.heap.set r { t with fields := (k, v) :: t.fields } }
    | none => Except.error Fault.undefined
  | _, _ => Except.error Fault.undefined

/-- Pops a table and makes it the metatable of the table at `idx`. -/
def lua_setmetatable (st : lua_State) (idx : Int) : Except Fault lua_State :=
  match index2value st idx, st.stack.getLast? with
  | some (Value.table r), some (Value.table m) =>
    match st.heap[r]? with
    | some t =>
      Except.ok { st with stack := st.stack.dropLast,
                          heap := st.heap.set r { t with metatable := some m } }
    | none => Except.error Fault.undefined
  | _, _ => Except.error Fault.undefined

/-- Compiles a chunk: pushes the function and answers 0, or pushes the
compiler's message and answers a non-zero status. -/
def luaL_loadstring (W : World) (st : lua_State) (s : String) : Int × lua_State :=
  let st1 := { st with log := st.log ++ [Event.loadstring s] }
  match W.loadstring s with
  | Except.ok ref => (0, push st1 (Value.func ref))
  | Except.error msg => (LUA_ERRSYNTAX, push st1 (Value.string msg))

/-- The protected call `lua_pcall(L, nargs, LUA_MULTRET, 0)`: the function and
its `nargs` arguments are popped; all results are pushed and 0 is answered, or
the error value is pushed and a non-zero status is answered. -/
def lua_pcall (W : World) (st : lua_State) (nargs : Nat) : Except Fault (Int × lua_State) :=
  if st.stack.length < nargs + 1 then Except.error Fault.undefined
  else
    match st.stack.drop (st.stack.length - (nargs + 1)) with
    | [] => Except.error Fault.undefined
    | f :: args =>
      let below := st.stack.take (st.stack.length - (nargs + 1))
      let log1 := st.log ++ [Event.pcall f args]
      let out := W.call f args st.globals st.heap log1
      match out.result with
      | Except.ok results =>
        Except.ok (0, { stack := below ++ results, globals := out.globals,
                        heap := out.heap, log := log1 ++ out.events })
      | Except.error e =>
        Except.ok (LUA_ERRRUN, { stack := below ++ [e], globals := out.globals,
                                 heap := out.heap, log := log1 ++ out.events })

/-! ## The host API (`gnumake.h`) and the C library -/

def gmk_expand (W : World) (st : lua_State) (text : String) : String × lua_State :=
  (W.expand st.log text, { st with log := st.log ++ [Event.gmk_expand text] })

def gmk_free (st : lua_State) (text : String) : lua_State :=
  { st with log := st.log ++ [Event.gmk_free text] }

def gmk_alloc (st : lua_State) (size : Nat) : lua_State :=
  { st with log := st.log ++ [Event.gmk_alloc size] }

def gmk_eval (st : lua_State) (text : String) (floc : Option gmk_floc) : lua_State :=
  { st with log := st.log ++ [Event.gmk_eval text floc] }

def gmk_add_function (st : lua_State) (name : String) (func : HostFn) (min max flags : Nat) :
    lua_State :=
  { st with log := st.log ++ [Event.gmk_add_function name func min max flags] }

def fprintf_stderr (st : lua_State) (text : String) : lua_State :=
  { st with log := st.log ++ [Event.stderr text] }

/-- What `snprintf(buf, size, ...)` leaves in `buf` when the formatted text is
`text`: at most `size - 1` bytes of it. -/
def snprintf (size : Nat) (text : String) : String :=
  String.mk (text.data.take (size - 1))

/-! ## The bridge (`lua_make.c`) -/

/-- The error channel to the host: a synthesized call of the host's `error`
function, formatted into a buffer of 256 bytes, and the message on the
diagnostic stream.  `msg` is a `const char*`: `none` is NULL. -/
def error (st : lua_State) (msg : Option String) : Except Fault lua_State :=
  match msg with
  | none => Except.error Fault.undefined
  | some m =>
    let buf := snprintf 256 ("$(error " ++ m ++ ")\n")
    let st1 := fprintf_stderr st ("error '" ++ m ++ "'\n\n")
    Except.ok (gmk_eval st1 buf none)

/-- The `__index` handler of the global `make`: the frame holds the table at
index 1 and the key at index 2. -/
def lua_lookup (W : World) (st : lua_State) : Except Fault (Nat × lua_State) :=
  match luaL_checkstring st 2 with
  | Except.error f => Except.error f
  | Except.ok st1 =>
    let st2 := lua_settop st1 2
    let st3 := lua_pushliteral st2 "$("
    match lua_insert st3 2 with
    | Except.error f => Except.error f
    | Except.ok st4 =>
      let st5 := lua_pushliteral st4 ")"
      match lua_concat st5 3 with
      | Except.error f => Except.error f
      | Except.ok st6 =>
        match lua_tostring st6 (-1) with
        | (none, _) => Except.error Fault.undefined
        | (some text, st7) =>
          let (res, st8) := gmk_expand W st7 text
          let st9 := lua_settop st8 0
          let st10 := lua_pushstring st9 res
          Except.ok (1, gmk_free st10 res)

/-- The script function `eval`.  `caller` is what `lua_getstack(L, 1, &info)`
and `lua_getinfo(L, "nSl", &info)` report: the source name and current line of
the function that called `eval`, when there is such a frame. -/
def lua_eval (caller : Option gmk_floc) (st : lua_State) : Nat × lua_State :=
  let (str, st1) := lua_tostring st (-1)
  let st2 :=
    match str with
    | some s =>
      let loc : gmk_floc := { filenm := "lua", lineno := 42 }
      let locptr : Option gmk_floc :=
        match caller with
        | some info => some { loc with filenm := info.filenm, lineno := info.lineno }
        | none => none
      gmk_eval st1 s locptr
    | none => st1
  (0, lua_settop st2 0)

/-- The loop of `lua_expand`, `for (i = 1; i <= N; ++i)`, by recursion on the
number of iterations left. -/
def lua_expand_loop (W : World) : Nat → Nat → lua_State → Except Fault lua_State
  | 0, _, st => Except.ok st
  | k + 1, i, st =>
    match lua_tostring st i with
    | (none, _) => Except.error Fault.undefined
    | (some s, st1) =>
      let (ex, st2) := gmk_expand W st1 s
      let st3 := lua_pushstring st2 ex
      match lua_replace st3 i with
      | Except.error f => Except.error f
      | Except.ok st4 => lua_expand_loop W k (i + 1) (gmk_free st4 ex)

/-- The script function `expand`. -/
def lua_expand (W : World) (st : lua_State) : Except Fault (Nat × lua_State) :=
  let N := lua_gettop st
  match lua_expand_loop W N 1 st with
  | Except.error f => Except.error f
  | Except.ok st1 => Except.ok (N, st1)

/-- The loop of `pcall` over `argv[0 .. argc-1]`: expand, push, free. -/
def pcall_push (W : World) : List String → lua_State → lua_State
  | [], st => st
  | a :: rest, st =>
    let (exp, st1) := gmk_expand W st a
    let st2 := lua_pushstring st1 exp
    pcall_push W rest (gmk_free st2 exp)

/-- The wrapper around `lua_pcall`.  `res` is the current content of `*res`
(`none` is NULL); the answer is the returned int, the new content of `*res`
and the state. -/
def pcall (W : World) (st : lua_State) (res : Option String) (argv : List String) :
    Except Fault (Int × Option String × lua_State) :=
  if lua_isfunction st (-1) then
    let base := lua_gettop st
    let st1 := pcall_push W argv st
    let Nargs := lua_gettop st1 - base
    match lua_pcall W st1 Nargs with
    | Except.error f => Except.error f
    | Except.ok (status, st2) =>
      if status ≠ 0 then
        let (msg, st3) := lua_tostring st2 (-1)
        match error st3 msg with
        | Except.error f => Except.error f
        | Except.ok st4 => Except.ok (0, res, st4)
      else if lua_gettop st2 ≥ base then
        match lua_tolstring st2 base with
        | (some str, sz, st3) =>
          if sz ≠ 0 then Except.ok (1, some str, gmk_alloc st3 (sz + 1))
          else Except.ok (1, res, st3)
        | (none, _, st3) => Except.ok (1, res, st3)
      else Except.ok (1, res, st2)
  else Except.ok (0, res, st)

/-- The host entry point behind every exported name. -/
def dispatch (W : World) (name : String) (argv : List String) (st : lua_State) :
    Except Fault (Option String × lua_State) :=
  let top := lua_gettop st
  let ret : Option String := none
  let st1 := lua_getglobal st name
  match pcall W st1 ret argv with
  | Except.error f => Except.error f
  | Except.ok (_, ret1, st2) => Except.ok (ret1, lua_settop st2 top)

/-- The script function `export`. -/
def lua_export (st : lua_State) : Except Fault (Nat × lua_State) :=
  match lua_tostring st 1 with
  | (none, _) => Except.error Fault.undefined
  | (some name, st1) =>
    match lua_setglobal st1 name with
    | Except.error f => Except.error f
    | Except.ok st2 =>
      let st3 := gmk_add_function st2 name HostFn.dispatch 1 8 GMK_FUNC_NOEXPAND
      Except.ok (0, lua_settop st3 0)

/-- The ad-hoc evaluator, the host function `lua`.  `argv` is the argument
vector (`argc` is its length); reading `argv[0]` of an empty vector is
undefined. -/
def lua (W : World) (_nm : String) (argv : List String) (st : lua_State) :
    Except Fault (Option String × lua_State) :=
  match argv with
  | [] => Except.error Fault.undefined
  | script0 :: rest =>
    let ret : Option String := none
    let top := lua_gettop st
    let rewritten : Except Fault (Option String × lua_State) :=
      if script0.data.head? = some backtick then
        let st1 := lua_pushliteral st "return "
        let st2 := lua_pushstring st1 (String.mk script0.data.tail)
        match lua_concat st2 2 with
        | Except.error f => Except.error f
        | Except.ok st3 => Except.ok (lua_tostring st3 (-1))
      else Except.ok (some script0, st)
    match rewritten with
    | Except.error f => Except.error f
    | Except.ok (none, _) => Except.error Fault.undefined
    | Except.ok (some script, st4) =>
      let (expanded, st5) := gmk_expand W st4 script
      let (status, st6) := luaL_loadstring W st5 expanded
      let called : Except Fault (Option String × lua_State) :=
        if status = 0 then
          match pcall W st6 ret rest with
          | Except.error f => Except.error f
          | Except.ok (_, ret1, st7) => Except.ok (ret1, st7)
        else
          let (msg, st7) := lua_tostring st6 (-1)
          match error st7 msg with
          | Except.error f => Except.error f
          | Except.ok st8 => Except.ok (ret, st8)
      match called with
      | Except.error f => Except.error f
      | Except.ok (ret1, st9) => Except.ok (ret1, lua_settop (gmk_free st9 expanded) top)

/-- The setup entry point: a fresh interpreter, the three script functions as
globals, the global `make` with its metatable, and the host function `lua`.
`log` is what has been logged before. -/
def lua_make_gmk_setup (W : World) (log : List Event) : Except Fault (Int × lua_State) :=
  let L : lua_State := { stack := [], globals := W.newstate.1, heap := W.newstate.2, log := log }
  let st1 := lua_newtable L
  match lua_setglobal (lua_pushcfunction st1 CFunction.lua_eval) "eval" with
  | Except.error f => Except.error f
  | Except.ok st2 =>
    match lua_setglobal (lua_pushcfunction st2 CFunction.lua_export) "export" with
    | Except.error f => Except.error f
    | Except.ok st3 =>
      match lua_setglobal (lua_pushcfunction st3 CFunction.lua_expand) "expand" with
      | Except.error f => Except.error f
      | Except.ok st4 =>
        let env := lua_gettop st4
        let st5 := lua_newtable st4
        let mt := lua_gettop st5
        match lua_setfield (lua_pushcfunction st5 CFunction.lua_lookup) mt "__index" with
        | Except.error f => Except.error f
        | Except.ok st6 =>
          match lua_setmetatable st6 env with
          | Except.error f => Except.error f
          | Except.ok st7 =>
            match lua_setglobal st7 "make" with
            | Except.error f => Except.error f
            | Except.ok st8 =>
              Except.ok (1, gmk_add_function st8 "lua" HostFn.lua 1 8 GMK_FUNC_NOEXPAND)

/-! ## Specification-level functions

The theorems say what the code computes in terms of these: they speak of
argument lists, results and logged calls, not of stack slots, and are related
to the code by the theorems below. -/

/-- The host expansions of an argument vector, in order: each argument is
submitted once, after the ones before it. -/
def expansions (W : World) : List Event → List String → List String
  | _, [] => []
  | log, a :: rest =>
    W.expand log a ::
      expansions W (log ++ [Event.gmk_expand a, Event.gmk_free (W.expand log a)]) rest

/-- The host calls made by expanding an argument vector: one expansion per
argument, in order, each buffer released right after its use. -/
def expandLog (W : World) : List Event → List String → List Event
  | _, [] => []
  | log, a :: rest =>
    Event.gmk_expand a :: Event.gmk_free (W.expand log a) ::
      expandLog W (log ++ [Event.gmk_expand a, Event.gmk_free (W.expand log a)]) rest

/-- A value the interpreter counts as a function (`LUA_TFUNCTION`). -/
def isFunction : Value → Bool
  | Value.func _ => true
  | Value.cfunction _ => true
  | _ => false

/-- The string the host receives for a list of results: the conversion of the
first result, when there is a first result and it has a non-empty conversion. -/
def firstResult : List Value → Option String
  | [] => none
  | v :: _ =>
    match tostr v with
    | some s => if s.length = 0 then none else some s
    | none => none

/-- The host allocation made for a result string: its bytes and the
terminating null. -/
def allocEvents : Option String → List Event
  | none => []
  | some s => [Event.gmk_alloc (s.length + 1)]

/-- The two calls one use of the error channel makes for a message that fits
its buffer or not: the message on the diagnostic stream, then the formatted
buffer given to the host evaluator. -/
def errorEvents (m : String) : List Event :=
  [Event.stderr ("error '" ++ m ++ "'\n\n"),
   Event.gmk_eval (snprintf 256 ("$(error " ++ m ++ ")\n")) none]

/-- The values a C function returns to the script: the top `n` of its frame. -/
def results (n : Nat) (st : lua_State) : List Value :=
  st.stack.drop (st.stack.length - n)

/-- What `lua_tolstring` at the first result leaves of the results: the first
one converted in place when it has a conversion. -/
def convertFirst : List Value → List Value
  | [] => []
  | v :: rest =>
    match tostr v with
    | some s => Value.string s :: rest
    | none => v :: rest

/-- The log at the moment the VM enters `f`: the expansions of the arguments,
then the call itself, on the expanded arguments. -/
def callLog (W : World) (f : Value) (argv : List String) (log : List Event) : List Event :=
  log ++ expandLog W log argv ++ [Event.pcall f ((expansions W log argv).map Value.string)]

/-- The outcome of the one call of `f` on the expansions of `argv`. -/
def callOn (W : World) (f : Value) (argv : List String) (g : List (String × Value))
    (h : List Table) (log : List Event) : Outcome :=
  W.call f ((expansions W log argv).map Value.string) g h (callLog W f argv log)

/-- The script text the ad-hoc evaluator submits to the host: the text behind
the marker with `return ` in front, or the text as it is. -/
def scriptText (script : String) : String :=
  if script.data.head? = some backtick then "return " ++ String.mk script.data.tail else script

/-- The log once the ad-hoc evaluator has expanded and compiled its script. -/
def loadLog (W : World) (script : String) (log : List Event) : List Event :=
  log ++ [Event.gmk_expand (scriptText script),
          Event.loadstring (W.expand log (scriptText script))]

/-- The texts submitted to the host's expansion engine, in the order of the
log. -/
def expandedTexts : List Event → List String
  | [] => []
  | Event.gmk_expand t :: rest => t :: expandedTexts rest
  | _ :: rest => expandedTexts rest

/-- The VM entering one of the bridge's C functions on a frame that holds the
arguments of the call. -/
def callC (W : World) (caller : Option gmk_floc) :
    CFunction → lua_State → Except Fault (Nat × lua_State)
  | CFunction.lua_lookup, st => lua_lookup W st
  | CFunction.lua_eval, st => Except.ok (lua_eval caller st)
  | CFunction.lua_expand, st => lua_expand W st
  | CFunction.lua_export, st => lua_export st

/-- A call of the host into the bridge: an exported name, or the ad-hoc
evaluator. -/
inductive HostCall
  | dispatch (name : String) (argv : List String)
  | lua (argv : List String)

/-- The host making one call into the bridge. -/
def invoke (W : World) : HostCall → lua_State → Except Fault (Option String × lua_State)
  | HostCall.dispatch name argv, st => dispatch W name argv st
  | HostCall.lua argv, st => lua W "lua" argv st

/-- The host making a sequence of calls into the bridge, one after the other. -/
def invokeAll (W : World) : List HostCall → lua_State → Except Fault lua_State
  | [], st => Except.ok st
  | c :: rest, st =>
    match invoke W c st with
    | Except.error f => Except.error f
    | Except.ok (_, st1) => invokeAll W rest st1

/-! ## A small world for concrete runs -/

/-- A host that knows `$(CC)` as `gcc`, has `$(UNSET)` unset and leaves other
texts alone; a VM with a function that returns its arguments (0), ones that
raise the empty string (1), a table (3) and a message (4), one that returns the
empty string (2), the chunk `return 1+2` (7), and functions that return
nothing; a compiler that knows two chunks. -/
def exampleWorld : World where
  expand := fun _ text =>
    if text = "$(CC)" then "gcc" else if text = "$(UNSET)" then "" else text
  call := fun f args g h _ =>
    match f with
    | Value.func 0 => ⟨Except.ok args, g, h, []⟩
    | Value.func 1 => ⟨Except.error (Value.string ""), g, h, []⟩
    | Value.func 2 => ⟨Except.ok [Value.string ""], g, h, []⟩
    | Value.func 3 => ⟨Except.error (Value.table 0), g, h, []⟩
    | Value.func 4 => ⟨Except.error (Value.string "boom"), g, h, []⟩
    | Value.func 7 => ⟨Except.ok [Value.number "3"], g, h, []⟩
    | _ => ⟨Except.ok [], g, h, []⟩
  loadstring := fun text =>
    if text = "return 1+2" then Except.ok 7
    else if text = "error('boom', 0)" then Except.ok 4
    else Except.error "syntax error near <eof>"
  newstate := ([], [])

/-- An interpreter state in the middle of a run: one value on the stack, five
names bound to functions and one to a number. -/
def exampleState : lua_State where
  stack := [Value.boolean true]
  globals := [("echo", Value.func 0), ("fail", Value.func 1), ("blank", Value.func 2),
              ("throw", Value.func 3), ("boom", Value.func 4), ("count", Value.number "3")]
  heap := []
  log := []

/-- Five calls of the host, one after the other: one that returns a string, one
that raises, one on an unset name, an expression, and a script that does not
compile. -/
def exampleCalls : List HostCall :=
  [HostCall.dispatch "echo" ["a"], HostCall.dispatch "boom" [],
   HostCall.dispatch "unset" ["b"], HostCall.lua ["`1+2"], HostCall.lua ["1+"]]

/-- The state the five calls leave behind. -/
def exampleAfter : lua_State :=
  { exampleState with
    log := [Event.gmk_expand "a", Event.gmk_free "a",
            Event.pcall (Value.func 0) [Value.string "a"], Event.gmk_alloc 2,
            Event.pcall (Value.func 4) [],
            Event.stderr "error 'boom'\n\n", Event.gmk_eval "$(error boom)\n" none,
            Event.gmk_expand "return 1+2", Event.loadstring "return 1+2",
            Event.pcall (Value.func 7) [], Event.gmk_alloc 2,
            Event.gmk_free "return 1+2",
            Event.gmk_expand "1+", Event.loadstring "1+",
            Event.stderr "error 'syntax error near <eof>'\n\n",
            Event.gmk_eval "$(error syntax error near <eof>)\n" none,
            Event.gmk_free "1+"] }

/-! ## Stack indices -/

theorem index2addr_top (n : Nat) : index2addr (n + 1) (-1) = some n := by
  simp [index2addr]

theorem index2addr_top_empty : index2addr 0 (-1) = none := by
  simp [index2addr]

theorem index2addr_pos (n k : Nat) (h : k < n) : index2addr n ((k + 1 : Nat) : Int) = some k := by
  have h1 : (0 : Int) < ((k + 1 : Nat) : Int) := by omega
  simp only [index2addr, h1, if_true, Int.toNat_ofNat]
  have h2 : k + 1 ≤ n := h
  simp [h2]

theorem getElem?_at_length {α : Type} (l : List α) (a : α) (rest : List α) :
    (l ++ a :: rest)[l.length]? = some a := by
  induction l with
  | nil => simp
  | cons x l ih => simpa using ih

theorem getElem?_at_length_succ {α : Type} (l : List α) (a b : α) (rest : List α) :
    (l ++ a :: b :: rest)[l.length + 1]? = some b := by
  induction l with
  | nil => simp
  | cons x l ih => simpa using ih

theorem set_at_length {α : Type} (l : List α) (a c : α) (rest : List α) :
    (l ++ a :: rest).set l.length c = l ++ c :: rest := by
  induction l with
  | nil => rfl
  | cons x l ih => simp [ih]

theorem set_at_length_succ {α : Type} (l : List α) (a b c : α) (rest : List α) :
    (l ++ a :: b :: rest).set (l.length + 1) c = l ++ a :: c :: rest := by
  induction l with
  | nil => rfl
  | cons x l ih => simp [ih]

theorem getElem?_mid (pre post : List Value) (v : Value) :
    (pre ++ v :: post)[pre.length]? = some v := getElem?_at_length pre v post

theorem set_mid (pre post : List Value) (v w : Value) :
    (pre ++ v :: post).set pre.length w = pre ++ w :: post := set_at_length pre v w post

theorem getElem?_last (below : List Value) (v : Value) :
    (below ++ [v])[below.length]? = some v := getElem?_mid below [] v

theorem set_last (below : List Value) (v w : Value) :
    (below ++ [v]).set below.length w = below ++ [w] := set_mid below [] v w

theorem index2value_top (below : List Value) (v : Value) (g : List (String × Value))
    (h : List Table) (log : List Event) :
    index2value ⟨below ++ [v], g, h, log⟩ (-1) = some v := by
  simp only [index2value, List.length_append, List.length_singleton, index2addr_top,
    getElem?_last]

theorem lua_isfunction_top (below : List Value) (v : Value) (g : List (String × Value))
    (h : List Table) (log : List Event) :
    lua_isfunction ⟨below ++ [v], g, h, log⟩ (-1) = isFunction v := by
  simp only [lua_isfunction, index2value_top]
  cases v <;> rfl

theorem lua_tolstring_pos (pre post : List Value) (v : Value) (g : List (String × Value))
    (h : List Table) (log : List Event) :
    lua_tolstring ⟨pre ++ v :: post, g, h, log⟩ ((pre.length + 1 : Nat) : Int) =
      match tostr v with
      | none => (none, 0, ⟨pre ++ v :: post, g, h, log⟩)
      | some s => (some s, s.length, ⟨pre ++ Value.string s :: post, g, h, log⟩) := by
  have hk : pre.length < (pre ++ v :: post).length := by simp
  simp only [lua_tolstring, index2addr_pos _ _ hk, getElem?_mid, set_mid]

theorem lua_tolstring_top (below : List Value) (v : Value) (g : List (String × Value))
    (h : List Table) (log : List Event) :
    lua_tolstring ⟨below ++ [v], g, h, log⟩ (-1) =
      match tostr v with
      | none => (none, 0, ⟨below ++ [v], g, h, log⟩)
      | some s => (some s, s.length, ⟨below ++ [Value.string s], g, h, log⟩) := by
  simp only [lua_tolstring, List.length_append, List.length_singleton, index2addr_top,
    getElem?_last, set_last]

theorem lua_settop_below (below extra : List Value) (g : List (String × Value))
    (h : List Table) (log : List Event) :
    lua_settop ⟨below ++ extra, g, h, log⟩ below.length = ⟨below, g, h, log⟩ := by
  simp [lua_settop]

theorem lua_tostring_top (below : List Value) (v : Value) (g : List (String × Value))
    (h : List Table) (log : List Event) :
    lua_tostring ⟨below ++ [v], g, h, log⟩ (-1) =
      match tostr v with
      | none => (none, ⟨below ++ [v], g, h, log⟩)
      | some s => (some s, ⟨below ++ [Value.string s], g, h, log⟩) := by
  simp only [lua_tostring, lua_tolstring_top]
  cases tostr v <;> rfl

theorem lua_tostring_pos (pre post : List Value) (v : Value) (g : List (String × Value))
    (h : List Table) (log : List Event) :
    lua_tostring ⟨pre ++ v :: post, g, h, log⟩ ((pre.length + 1 : Nat) : Int) =
      match tostr v with
      | none => (none, ⟨pre ++ v :: post, g, h, log⟩)
      | some s => (some s, ⟨pre ++ Value.string s :: post, g, h, log⟩) := by
  simp only [lua_tostring, lua_tolstring_pos]
  cases tostr v <;> rfl

/-! ## The argument loop of `pcall` -/

theorem expansions_length (W : World) (argv : List String) :
    ∀ log, (expansions W log argv).length = argv.length := by
  induction argv with
  | nil => intro log; rfl
  | cons a rest ih => intro log; simp [expansions, ih]

/-- The loop pushes the expansions in order and logs one expansion per
argument. -/
theorem pcall_push_eq (W : World) (argv : List String) :
    ∀ (stack : List Value) (g : List (String × Value)) (h : List Table) (log : List Event),
      pcall_push W argv ⟨stack, g, h, log⟩ =
        ⟨stack ++ (expansions W log argv).map Value.string, g, h,
          log ++ expandLog W log argv⟩ := by
  induction argv with
  | nil => intro stack g h log; simp [pcall_push, expansions, expandLog]
  | cons a rest ih =>
    intro stack g h log
    simp [pcall_push, expansions, expandLog, gmk_expand, lua_pushstring, push, gmk_free, ih]

/-- The protected call on a frame that ends with the function and its
arguments. -/
theorem lua_pcall_eq (W : World) (below args : List Value) (f : Value)
    (g : List (String × Value)) (h : List Table) (log : List Event) :
    lua_pcall W ⟨below ++ f :: args, g, h, log⟩ args.length =
      match (W.call f args g h (log ++ [Event.pcall f args])).result with
      | Except.ok rs =>
        Except.ok (0, ⟨below ++ rs, (W.call f args g h (log ++ [Event.pcall f args])).globals,
          (W.call f args g h (log ++ [Event.pcall f args])).heap,
          log ++ [Event.pcall f args] ++ (W.call f args g h (log ++ [Event.pcall f args])).events⟩)
      | Except.error e =>
        Except.ok (LUA_ERRRUN,
          ⟨below ++ [e], (W.call f args g h (log ++ [Event.pcall f args])).globals,
          (W.call f args g h (log ++ [Event.pcall f args])).heap,
          log ++ [Event.pcall f args] ++ (W.call f args g h (log ++ [Event.pcall f args])).events⟩) := by
  have hlen : (below ++ f :: args).length - (args.length + 1) = below.length := by
    simp
  have hnot : ¬ (below ++ f :: args).length < args.length + 1 := by
    simp
  simp only [lua_pcall, hnot, if_false, hlen, List.drop_left, List.take_left]

/-- The closed form of `pcall` on a frame whose top is a function: the
arguments are expanded in order, the function is called once on the expansions,
and the outcome of the call decides the rest. -/
theorem pcall_eq (W : World) (below : List Value) (f : Value) (hf : isFunction f = true)
    (g : List (String × Value)) (h : List Table) (log : List Event) (res : Option String)
    (argv : List String) :
    pcall W ⟨below ++ [f], g, h, log⟩ res argv =
      match (W.call f ((expansions W log argv).map Value.string) g h
          (log ++ expandLog W log argv ++
            [Event.pcall f ((expansions W log argv).map Value.string)])).result with
      | Except.ok rs =>
        Except.ok (1, (match firstResult rs with | some s => some s | none => res),
          ⟨below ++ convertFirst rs,
           (W.call f ((expansions W log argv).map Value.string) g h
              (log ++ expandLog W log argv ++
                [Event.pcall f ((expansions W log argv).map Value.string)])).globals,
           (W.call f ((expansions W log argv).map Value.string) g h
              (log ++ expandLog W log argv ++
                [Event.pcall f ((expansions W log argv).map Value.string)])).heap,
           log ++ expandLog W log argv ++
             [Event.pcall f ((expansions W log argv).map Value.string)] ++
             (W.call f ((expansions W log argv).map Value.string) g h
              (log ++ expandLog W log argv ++
                [Event.pcall f ((expansions W log argv).map Value.string)])).events ++
             allocEvents (firstResult rs)⟩)
      | Except.error e =>
        match tostr e with
        | some m =>
          Except.ok (0, res,
            ⟨below ++ [Value.string m],
             (W.call f ((expansions W log argv).map Value.string) g h
                (log ++ expandLog W log argv ++
                  [Event.pcall f ((expansions W log argv).map Value.string)])).globals,
             (W.call f ((expansions W log argv).map Value.string) g h
                (log ++ expandLog W log argv ++
                  [Event.pcall f ((expansions W log argv).map Value.string)])).heap,
             log ++ expandLog W log argv ++
               [Event.pcall f ((expansions W log argv).map Value.string)] ++
               (W.call f ((expansions W log argv).map Value.string) g h
                (log ++ expandLog W log argv ++
                  [Event.pcall f ((expansions W log argv).map Value.string)])).events ++
               errorEvents m⟩)
        | none => Except.error Fault.undefined := by
  generalize hvals : (expansions W log argv).map Value.string = vals
  have key : pcall_push W argv ⟨below ++ [f], g, h, log⟩ =
      ⟨below ++ f :: vals, g, h, log ++ expandLog W log argv⟩ := by
    rw [pcall_push_eq, hvals]; simp
  have hN : lua_gettop ⟨below ++ f :: vals, g, h, log ++ expandLog W log argv⟩ -
      lua_gettop ⟨below ++ [f], g, h, log⟩ = vals.length := by
    simp only [lua_gettop, List.length_append, List.length_cons, List.length_nil]; omega
  unfold pcall
  rw [lua_isfunction_top, hf]
  simp only [↓reduceIte]
  rw [key, hN, lua_pcall_eq]
  generalize W.call f vals g h (log ++ expandLog W log argv ++ [Event.pcall f vals]) = out
  cases hres : out.result with
  | error e =>
    simp only [LUA_ERRRUN, lua_tostring_top]
    cases hm : tostr e with
    | none => simp [error]
    | some m => simp [error, errorEvents, fprintf_stderr, gmk_eval]
  | ok rs =>
    cases rs with
    | nil => simp [firstResult, convertFirst, allocEvents, lua_gettop]
    | cons v rest =>
      have hge : lua_gettop ⟨below ++ v :: rest, out.globals, out.heap,
          log ++ expandLog W log argv ++ [Event.pcall f vals] ++ out.events⟩ ≥
          lua_gettop ⟨below ++ [f], g, h, log⟩ := by
        simp [lua_gettop]
      have hidx : ((lua_gettop ⟨below ++ [f], g, h, log⟩ : Nat) : Int) =
          ((below.length + 1 : Nat) : Int) := by
        simp [lua_gettop]
      simp only [ne_eq, not_true_eq_false, ↓reduceIte, hge, hidx, lua_tolstring_pos]
      cases hs : tostr v with
      | none => simp [firstResult, convertFirst, allocEvents, hs]
      | some str =>
        by_cases hz : str.length = 0
        · simp [firstResult, convertFirst, allocEvents, hs, hz]
        · simp [firstResult, convertFirst, allocEvents, hs, hz, gmk_alloc]

/-- On a frame whose top is not a function `pcall` does nothing. -/
theorem pcall_not_function (W : World) (below : List Value) (v : Value)
    (hv : isFunction v = false) (g : List (String × Value)) (h : List Table) (log : List Event)
    (res : Option String) (argv : List String) :
    pcall W ⟨below ++ [v], g, h, log⟩ res argv = Except.ok (0, res, ⟨below ++ [v], g, h, log⟩) := by
  simp [pcall, lua_isfunction_top, hv]

/-- The closed form of `dispatch` on a name bound to a function. -/
theorem dispatch_eq (W : World) (name : String) (argv : List String) (st : lua_State)
    (hf : isFunction (assoc name st.globals) = true) :
    dispatch W name argv st =
      match (callOn W (assoc name st.globals) argv st.globals st.heap st.log).result with
      | Except.ok rs =>
        Except.ok (firstResult rs,
          ⟨st.stack, (callOn W (assoc name st.globals) argv st.globals st.heap st.log).globals,
           (callOn W (assoc name st.globals) argv st.globals st.heap st.log).heap,
           callLog W (assoc name st.globals) argv st.log ++
             (callOn W (assoc name st.globals) argv st.globals st.heap st.log).events ++
             allocEvents (firstResult rs)⟩)
      | Except.error e =>
        match tostr e with
        | some m =>
          Except.ok (none,
            ⟨st.stack, (callOn W (assoc name st.globals) argv st.globals st.heap st.log).globals,
             (callOn W (assoc name st.globals) argv st.globals st.heap st.log).heap,
             callLog W (assoc name st.globals) argv st.log ++
               (callOn W (assoc name st.globals) argv st.globals st.heap st.log).events ++
               errorEvents m⟩)
        | none => Except.error Fault.undefined := by
  obtain ⟨stack, g, h, log⟩ := st
  simp only [dispatch, lua_getglobal, push, lua_gettop] at hf ⊢
  rw [pcall_eq W stack _ hf]
  simp only [callOn, callLog]
  generalize W.call (assoc name g) _ g h _ = out
  cases hres : out.result with
  | error e =>
    dsimp only
    cases hm : tostr e with
    | none => rfl
    | some m => simp only [lua_settop_below]
  | ok rs =>
    dsimp only
    simp only [lua_settop_below]
    cases firstResult rs <;> rfl

/-- On a name bound to anything but a function `dispatch` changes nothing. -/
theorem dispatch_not_function (W : World) (name : String) (argv : List String) (st : lua_State)
    (hf : isFunction (assoc name st.globals) = false) :
    dispatch W name argv st = Except.ok (none, st) := by
  obtain ⟨stack, g, h, log⟩ := st
  simp only [dispatch, lua_getglobal, push, lua_gettop] at hf ⊢
  rw [pcall_not_function W stack _ hf]
  simp only [lua_settop_below]

theorem lua_concat_two (below : List Value) (a b : String) (g : List (String × Value))
    (h : List Table) (log : List Event) :
    lua_concat ⟨below ++ [Value.string a, Value.string b], g, h, log⟩ 2 =
      Except.ok ⟨below ++ [Value.string (a ++ b)], g, h, log⟩ := by
  have hd : (below ++ [Value.string a, Value.string b]).length - 2 = below.length := by simp
  have hl : ¬ (below ++ [Value.string a, Value.string b]).length < 2 := by simp
  simp only [lua_concat, hl, hd, List.drop_left, List.take_left]
  simp [tostr, tostrAll, String.append_assoc]

theorem lua_concat_three (below : List Value) (a b c : String) (g : List (String × Value))
    (h : List Table) (log : List Event) :
    lua_concat ⟨below ++ [Value.string a, Value.string b, Value.string c], g, h, log⟩ 3 =
      Except.ok ⟨below ++ [Value.string (a ++ b ++ c)], g, h, log⟩ := by
  have hd : (below ++ [Value.string a, Value.string b, Value.string c]).length - 3 =
      below.length := by simp
  have hl : ¬ (below ++ [Value.string a, Value.string b, Value.string c]).length < 3 := by simp
  simp only [lua_concat, hl, hd, List.drop_left, List.take_left]
  simp [tostr, tostrAll, String.append_assoc]

/-- The closed form of the ad-hoc evaluator on a non-empty argument vector. -/
theorem lua_eq (W : World) (nm script : String) (rest : List String) (st : lua_State) :
    lua W nm (script :: rest) st =
      match W.loadstring (W.expand st.log (scriptText script)) with
      | Except.error msg =>
        Except.ok (none,
          ⟨st.stack, st.globals, st.heap,
           loadLog W script st.log ++ errorEvents msg ++
             [Event.gmk_free (W.expand st.log (scriptText script))]⟩)
      | Except.ok ref =>
        match (callOn W (Value.func ref) rest st.globals st.heap
            (loadLog W script st.log)).result with
        | Except.ok rs =>
          Except.ok (firstResult rs,
            ⟨st.stack,
             (callOn W (Value.func ref) rest st.globals st.heap (loadLog W script st.log)).globals,
             (callOn W (Value.func ref) rest st.globals st.heap (loadLog W script st.log)).heap,
             callLog W (Value.func ref) rest (loadLog W script st.log) ++
               (callOn W (Value.func ref) rest st.globals st.heap
                 (loadLog W script st.log)).events ++
               allocEvents (firstResult rs) ++
               [Event.gmk_free (W.expand st.log (scriptText script))]⟩)
        | Except.error e =>
          match tostr e with
          | some m =>
            Except.ok (none,
              ⟨st.stack,
               (callOn W (Value.func ref) rest st.globals st.heap
                 (loadLog W script st.log)).globals,
               (callOn W (Value.func ref) rest st.globals st.heap (loadLog W script st.log)).heap,
               callLog W (Value.func ref) rest (loadLog W script st.log) ++
                 (callOn W (Value.func ref) rest st.globals st.heap
                   (loadLog W script st.log)).events ++
                 errorEvents m ++
                 [Event.gmk_free (W.expand st.log (scriptText script))]⟩)
          | none => Except.error Fault.undefined := by
  obtain ⟨stack, g, h, log⟩ := st
  -- the rewrite leaves the frame with at most one extra value below the chunk
  have hrw : ∃ pre : List Value,
      (if script.data.head? = some backtick then
        match lua_concat (lua_pushstring (lua_pushliteral ⟨stack, g, h, log⟩ "return ")
            (String.mk script.data.tail)) 2 with
        | Except.error f => Except.error f
        | Except.ok st3 => Except.ok (lua_tostring st3 (-1))
      else (Except.ok (some script, ⟨stack, g, h, log⟩) :
        Except Fault (Option String × lua_State))) =
      Except.ok (some (scriptText script), ⟨stack ++ pre, g, h, log⟩) := by
    by_cases hb : script.data.head? = some backtick
    · refine ⟨[Value.string (scriptText script)], ?_⟩
      simp only [hb, ↓reduceIte, lua_pushliteral, lua_pushstring, push, List.append_assoc,
        List.singleton_append, lua_concat_two, lua_tostring_top, tostr, scriptText]
    · refine ⟨[], ?_⟩
      simp only [hb, ↓reduceIte, scriptText, List.append_nil]
  obtain ⟨pre, hpre⟩ := hrw
  have hlog : ∀ a b : Event, log ++ [a] ++ [b] = log ++ [a, b] := by
    intro a b; simp
  simp only [lua, hpre, gmk_expand, luaL_loadstring, lua_gettop, loadLog, hlog]
  cases hload : W.loadstring (W.expand log (scriptText script)) with
  | error msg =>
    simp only [LUA_ERRSYNTAX, push, lua_tostring_top, tostr, error,
      fprintf_stderr, gmk_eval, gmk_free, errorEvents]
    simp [lua_settop]
  | ok ref =>
    simp only [push, ↓reduceIte]
    rw [pcall_eq W (stack ++ pre) (Value.func ref) rfl]
    simp only [callOn, callLog]
    generalize W.call (Value.func ref) _ g h _ = out
    cases hres : out.result with
    | error e =>
      dsimp only
      cases hm : tostr e with
      | none => rfl
      | some m =>
        simp only [gmk_free, List.append_assoc]
        simp [lua_settop]
    | ok rs =>
      dsimp only
      simp only [gmk_free, List.append_assoc]
      cases firstResult rs <;> simp [lua_settop]

/-! ## The loop of `lua_expand` -/

theorem lua_replace_pos (pre post : List Value) (v w : Value) (g : List (String × Value))
    (h : List Table) (log : List Event) :
    lua_replace ⟨pre ++ v :: post ++ [w], g, h, log⟩ ((pre.length + 1 : Nat) : Int) =
      Except.ok ⟨pre ++ w :: post, g, h, log⟩ := by
  have hk : pre.length < (pre ++ v :: post ++ [w]).length := by simp
  have h1 : pre ++ v :: post ++ [w] = pre ++ v :: (post ++ [w]) := by simp
  have h2 : pre ++ w :: (post ++ [w]) = (pre ++ w :: post) ++ [w] := by simp
  have h3 : (pre ++ v :: post ++ [w]).getLast? = some w := by
    rw [List.getLast?_append]; rfl
  simp only [lua_replace, index2addr_pos _ _ hk, h3]
  rw [h1, set_mid, h2, List.dropLast_concat]

/-- The loop replaces the arguments still to do by their expansions, in order,
and leaves the values before them alone. -/
theorem lua_expand_loop_eq (W : World) (g : List (String × Value)) (h : List Table)
    (todo : List String) :
    ∀ (pre : List Value) (log : List Event),
      lua_expand_loop W todo.length (pre.length + 1)
          ⟨pre ++ todo.map Value.string, g, h, log⟩ =
        Except.ok ⟨pre ++ (expansions W log todo).map Value.string, g, h,
          log ++ expandLog W log todo⟩ := by
  induction todo with
  | nil => intro pre log; simp [lua_expand_loop, expansions, expandLog]
  | cons a rest ih =>
    intro pre log
    simp only [List.length_cons, List.map_cons, lua_expand_loop, lua_tostring_pos, tostr,
      gmk_expand, lua_pushstring, push, lua_replace_pos, gmk_free]
    have := ih (pre ++ [Value.string (W.expand log a)])
      (log ++ [Event.gmk_expand a] ++ [Event.gmk_free (W.expand log a)])
    simp only [List.length_append, List.length_singleton, List.append_assoc,
      List.singleton_append] at this
    simp only [List.append_assoc, List.singleton_append, this]
    simp [expansions, expandLog]

/-- The expansion of the `i`-th argument is the host's answer to that argument,
asked after the arguments before it. -/
theorem expansions_getElem? (W : World) (ss : List String) :
    ∀ (log : List Event) (i : Nat),
      (expansions W log ss)[i]? =
        (ss[i]?).map (W.expand (log ++ expandLog W log (ss.take i))) := by
  induction ss with
  | nil => intro log i; simp [expansions]
  | cons a rest ih =>
    intro log i
    cases i with
    | zero => simp [expansions, expandLog]
    | succ i => simp [expansions, expandLog, ih]

theorem expandedTexts_expandLog (W : World) (ss : List String) :
    ∀ log : List Event, expandedTexts (expandLog W log ss) = ss := by
  induction ss with
  | nil => intro log; rfl
  | cons a rest ih => intro log; simp [expandLog, expandedTexts, ih]

/-- When `dispatch` returns, the stack is the one it was entered with. -/
theorem dispatch_stack (W : World) (name : String) (argv : List String) (st : lua_State)
    (r : Option String × lua_State) (hr : dispatch W name argv st = Except.ok r) :
    r.2.stack = st.stack := by
  cases hf : isFunction (assoc name st.globals) with
  | false =>
    rw [dispatch_not_function W name argv st hf] at hr
    cases hr; rfl
  | true =>
    rw [dispatch_eq W name argv st hf] at hr
    cases hres : (callOn W (assoc name st.globals) argv st.globals st.heap st.log).result with
    | ok rs => rw [hres] at hr; cases hr; rfl
    | error e =>
      rw [hres] at hr
      dsimp only at hr
      cases hm : tostr e with
      | none => rw [hm] at hr; cases hr
      | some m => rw [hm] at hr; cases hr; rfl

/-- The one way `dispatch` does not return: the callee raised a value that has
no string conversion, so that the error channel is handed NULL. -/
theorem dispatch_fault (W : World) (name : String) (argv : List String) (st : lua_State)
    (f : Fault) (hr : dispatch W name argv st = Except.error f) :
    f = Fault.undefined ∧ isFunction (assoc name st.globals) = true ∧
      ∃ e, (callOn W (assoc name st.globals) argv st.globals st.heap st.log).result =
          Except.error e ∧ tostr e = none := by
  cases hf : isFunction (assoc name st.globals) with
  | false =>
    rw [dispatch_not_function W name argv st hf] at hr
    cases hr
  | true =>
    rw [dispatch_eq W name argv st hf] at hr
    cases hres : (callOn W (assoc name st.globals) argv st.globals st.heap st.log).result with
    | ok rs => rw [hres] at hr; cases hr
    | error e =>
      rw [hres] at hr
      dsimp only at hr
      cases hm : tostr e with
      | none => rw [hm] at hr; cases hr; exact ⟨rfl, rfl, e, rfl, hm⟩
      | some m => rw [hm] at hr; cases hr

/-- When the ad-hoc evaluator returns, the stack is the one it was entered
with. -/
theorem lua_stack (W : World) (nm : String) (argv : List String) (st : lua_State)
    (r : Option String × lua_State) (hr : lua W nm argv st = Except.ok r) :
    r.2.stack = st.stack := by
  cases argv with
  | nil => simp [lua] at hr
  | cons script rest =>
    rw [lua_eq] at hr
    cases hload : W.loadstring (W.expand st.log (scriptText script)) with
    | error msg => rw [hload] at hr; cases hr; rfl
    | ok ref =>
      rw [hload] at hr
      dsimp only at hr
      cases hres : (callOn W (Value.func ref) rest st.globals st.heap
          (loadLog W script st.log)).result with
      | ok rs => rw [hres] at hr; cases hr; rfl
      | error e =>
        rw [hres] at hr
        dsimp only at hr
        cases hm : tostr e with
        | none => rw [hm] at hr; cases hr
        | some m => rw [hm] at hr; cases hr; rfl

/-- The one way the ad-hoc evaluator does not return on a non-empty argument
vector: the chunk compiled and raised a value that has no string conversion. -/
theorem lua_fault (W : World) (nm script : String) (rest : List String) (st : lua_State)
    (f : Fault) (hr : lua W nm (script :: rest) st = Except.error f) :
    f = Fault.undefined ∧
      ∃ ref e, W.loadstring (W.expand st.log (scriptText script)) = Except.ok ref ∧
        (callOn W (Value.func ref) rest st.globals st.heap (loadLog W script st.log)).result =
          Except.error e ∧ tostr e = none := by
  rw [lua_eq] at hr
  cases hload : W.loadstring (W.expand st.log (scriptText script)) with
  | error msg => rw [hload] at hr; cases hr
  | ok ref =>
    rw [hload] at hr
    dsimp only at hr
    cases hres : (callOn W (Value.func ref) rest st.globals st.heap
        (loadLog W script st.log)).result with
    | ok rs => rw [hres] at hr; cases hr
    | error e =>
      rw [hres] at hr
      dsimp only at hr
      cases hm : tostr e with
      | none => rw [hm] at hr; cases hr; exact ⟨rfl, ref, e, rfl, hres, hm⟩
      | some m => rw [hm] at hr; cases hr

theorem invoke_stack (W : World) (c : HostCall) (st : lua_State)
    (r : Option String × lua_State) (hr : invoke W c st = Except.ok r) :
    r.2.stack = st.stack := by
  cases c with
  | dispatch name argv => exact dispatch_stack W name argv st r hr
  | lua argv => exact lua_stack W "lua" argv st r hr

theorem invokeAll_stack (W : World) (calls : List HostCall) :
    ∀ (st st' : lua_State), invokeAll W calls st = Except.ok st' → st'.stack = st.stack := by
  induction calls with
  | nil => intro st st' h; cases h; rfl
  | cons c rest ih =>
    intro st st' h
    simp only [invokeAll] at h
    cases hc : invoke W c st with
    | error f => rw [hc] at h; cases h
    | ok r =>
      obtain ⟨ret, st1⟩ := r
      rw [hc] at h
      rw [ih st1 st' h]
      exact invoke_stack W c st (ret, st1) hc

/-! ## The claims -/

/-- C1, as amended.  For every function `g` bound to the global `f` and every
argument vector, `dispatch` submits each argument to the host's expansion engine
once, in order, calls `g` once on the expansions, and, when `g` returns,
answers with the string conversion of the first result (copied into a host
allocation of its length plus one) when there is a first result and its
conversion is not empty; it answers with no string when there is no result,
when the first result has no string conversion, or when that conversion is the
empty string.  The other results are discarded and the stack is as before. -/
theorem dispatch_returns_first_result (W : World) (f : String) (argv : List String)
    (st : lua_State) (g : Value) (rs : List Value)
    (hbound : assoc f st.globals = g) (hfun : isFunction g = true)
    (hres : (callOn W g argv st.globals st.heap st.log).result = Except.ok rs) :
    dispatch W f argv st =
        Except.ok (firstResult rs,
          ⟨st.stack, (callOn W g argv st.globals st.heap st.log).globals,
           (callOn W g argv st.globals st.heap st.log).heap,
           st.log ++ expandLog W st.log argv ++
             [Event.pcall g ((expansions W st.log argv).map Value.string)] ++
             (callOn W g argv st.globals st.heap st.log).events ++
             allocEvents (firstResult rs)⟩) ∧
      expandedTexts (expandLog W st.log argv) = argv ∧
      (expansions W st.log argv).length = argv.length ∧
      (∀ i, (expansions W st.log argv)[i]? =
        (argv[i]?).map (W.expand (st.log ++ expandLog W st.log (argv.take i)))) := by
  subst hbound
  refine ⟨?_, expandedTexts_expandLog W argv st.log, expansions_length W argv st.log,
    expansions_getElem? W argv st.log⟩
  rw [dispatch_eq W f argv st hfun, hres]
  rfl

/-- A run of C1: `echo` returns its arguments, so the host receives the
expansion of the first one. -/
theorem dispatch_returns_first_result_witness :
    dispatch exampleWorld "echo" ["$(CC)", "-O2"] exampleState =
      Except.ok (some "gcc",
        { exampleState with
          log := [Event.gmk_expand "$(CC)", Event.gmk_free "gcc", Event.gmk_expand "-O2",
                  Event.gmk_free "-O2",
                  Event.pcall (Value.func 0) [Value.string "gcc", Value.string "-O2"],
                  Event.gmk_alloc 4] }) :=
  (dispatch_returns_first_result exampleWorld "echo" ["$(CC)", "-O2"] exampleState
    (Value.func 0) [Value.string "gcc", Value.string "-O2"] rfl rfl rfl).1

/-- C1 as first stated fails: `blank` produces one result, the empty string,
and the host receives no string. -/
theorem dispatch_empty_result_gives_no_string :
    isFunction (assoc "blank" exampleState.globals) = true ∧
      (callOn exampleWorld (assoc "blank" exampleState.globals) ["a"] exampleState.globals
        exampleState.heap exampleState.log).result = Except.ok [Value.string ""] ∧
      dispatch exampleWorld "blank" ["a"] exampleState =
        Except.ok (none,
          { exampleState with
            log := [Event.gmk_expand "a", Event.gmk_free "a",
                    Event.pcall (Value.func 2) [Value.string "a"]] }) :=
  ⟨rfl, rfl, rfl⟩

/-- C6.  When the global `name` holds a value that is not a function (in
particular `nil`, for an unset name, or any value that cannot be called),
`dispatch` answers with no string and leaves the whole state as it was: nothing
is logged, so there is no call of the error channel, no expansion and no call
into the VM, and the stack is as before. -/
theorem dispatch_ignores_non_function (W : World) (name : String) (argv : List String)
    (st : lua_State) (hv : isFunction (assoc name st.globals) = false) :
    dispatch W name argv st = Except.ok (none, st) :=
  dispatch_not_function W name argv st hv

/-- A run of C6: an unset name and a name bound to a number. -/
theorem dispatch_ignores_non_function_witness :
    dispatch exampleWorld "unset" ["$(CC)"] exampleState = Except.ok (none, exampleState) ∧
      dispatch exampleWorld "count" ["$(CC)"] exampleState = Except.ok (none, exampleState) :=
  ⟨dispatch_ignores_non_function exampleWorld "unset" ["$(CC)"] exampleState rfl,
   dispatch_ignores_non_function exampleWorld "count" ["$(CC)"] exampleState rfl⟩

theorem error_eq (st : lua_State) (m : String) :
    error st (some m) = Except.ok { st with log := st.log ++ errorEvents m } := by
  simp [error, errorEvents, fprintf_stderr, gmk_eval]

theorem scriptText_backtick (E : String) : scriptText ("`" ++ E) = "return " ++ E := by
  have hd : ("`" ++ E).data = backtick :: E.data := by
    rw [String.data_append]; rfl
  simp [scriptText, hd]

theorem scriptText_return (E : String) : scriptText ("return " ++ E) = "return " ++ E := by
  have hd : ("return " ++ E).data = 'r' :: ("eturn " ++ E).data := by
    rw [String.data_append, String.data_append]; rfl
  have hne : ¬ ('r' = backtick) := by decide
  simp [scriptText, hd, hne]

/-- C4.  The ad-hoc evaluator called with the marker in front of an expression
text `E` is the ad-hoc evaluator called with `return E`: the same answer, the
same final state, and the same log, hence the same expansions, compilation and
call.  The string the rewrite leaves on the stack below the chunk changes
nothing. -/
theorem lua_backtick_is_return (W : World) (nm E : String) (args : List String)
    (st : lua_State) :
    lua W nm (("`" ++ E) :: args) st = lua W nm (("return " ++ E) :: args) st := by
  rw [lua_eq, lua_eq]
  simp only [loadLog, scriptText_backtick, scriptText_return]

/-- C5, as amended.  When the function called by `dispatch`, or the chunk
called by the ad-hoc evaluator, raises an error value that is a string or a
number, the bridge uses the error channel once, with the string conversion of
that value as the message (whatever its length, the empty message included),
and answers with no string; the stack is as before.  The last part says what
one use of the error channel logs. -/
theorem raised_error_is_reported_once (W : World) :
    (∀ (name : String) (argv : List String) (st : lua_State) (e : Value) (m : String),
      isFunction (assoc name st.globals) = true →
      (callOn W (assoc name st.globals) argv st.globals st.heap st.log).result =
        Except.error e →
      tostr e = some m →
      dispatch W name argv st =
        Except.ok (none,
          ⟨st.stack, (callOn W (assoc name st.globals) argv st.globals st.heap st.log).globals,
           (callOn W (assoc name st.globals) argv st.globals st.heap st.log).heap,
           callLog W (assoc name st.globals) argv st.log ++
             (callOn W (assoc name st.globals) argv st.globals st.heap st.log).events ++
             errorEvents m⟩)) ∧
    (∀ (nm script : String) (rest : List String) (st : lua_State) (ref : Nat) (e : Value)
        (m : String),
      W.loadstring (W.expand st.log (scriptText script)) = Except.ok ref →
      (callOn W (Value.func ref) rest st.globals st.heap (loadLog W script st.log)).result =
        Except.error e →
      tostr e = some m →
      lua W nm (script :: rest) st =
        Except.ok (none,
          ⟨st.stack,
           (callOn W (Value.func ref) rest st.globals st.heap (loadLog W script st.log)).globals,
           (callOn W (Value.func ref) rest st.globals st.heap (loadLog W script st.log)).heap,
           callLog W (Value.func ref) rest (loadLog W script st.log) ++
             (callOn W (Value.func ref) rest st.globals st.heap
               (loadLog W script st.log)).events ++
             errorEvents m ++ [Event.gmk_free (W.expand st.log (scriptText script))]⟩)) ∧
    (∀ (st : lua_State) (m : String),
      error st (some m) = Except.ok { st with log := st.log ++ errorEvents m }) := by
  refine ⟨?_, ?_, error_eq⟩
  · intro name argv st e m hf hres hm
    rw [dispatch_eq W name argv st hf, hres]
    dsimp only
    rw [hm]
  · intro nm script rest st ref e m hload hres hm
    rw [lua_eq, hload]
    dsimp only
    rw [hres]
    dsimp only
    rw [hm]

/-- A run of C5: `boom` raises a message, which reaches the error channel
once. -/
theorem raised_error_is_reported_once_witness :
    dispatch exampleWorld "boom" ["a"] exampleState =
      Except.ok (none,
        { exampleState with
          log := [Event.gmk_expand "a", Event.gmk_free "a",
                  Event.pcall (Value.func 4) [Value.string "a"],
                  Event.stderr "error 'boom'\n\n",
                  Event.gmk_eval "$(error boom)\n" none] }) :=
  (raised_error_is_reported_once exampleWorld).1 "boom" ["a"] exampleState
    (Value.string "boom") "boom" rfl rfl rfl

/-- C5 as first stated fails: `fail` raises the empty string, and the message
the error channel carries is empty; `throw` raises a table, which has no string
conversion, and the error channel is handed NULL. -/
theorem raised_error_message_may_be_empty :
    (callOn exampleWorld (assoc "fail" exampleState.globals) [] exampleState.globals
        exampleState.heap exampleState.log).result = Except.error (Value.string "") ∧
      dispatch exampleWorld "fail" [] exampleState =
        Except.ok (none,
          { exampleState with
            log := [Event.pcall (Value.func 1) []] ++ errorEvents "" }) ∧
      "".length = 0 ∧
      dispatch exampleWorld "throw" [] exampleState = Except.error Fault.undefined :=
  ⟨rfl, rfl, rfl, rfl⟩

/-- C7.  Whenever a call of the host into the bridge returns (an exported name
or the ad-hoc evaluator, whatever the outcome: results, a raised error, a name
that holds no function, a script that does not compile), the stack has the
depth, and the content, it had on entry; hence so does any sequence of calls.
The last two parts say when a call does not return: only when the callee raised
a value without a string conversion (the ad-hoc evaluator is taken with its
script argument, which the registered minimum of one argument provides). -/
theorem host_calls_restore_stack (W : World) :
    (∀ (c : HostCall) (st : lua_State) (r : Option String × lua_State),
      invoke W c st = Except.ok r →
      lua_gettop r.2 = lua_gettop st ∧ r.2.stack = st.stack) ∧
    (∀ (calls : List HostCall) (st st' : lua_State),
      invokeAll W calls st = Except.ok st' →
      lua_gettop st' = lua_gettop st ∧ st'.stack = st.stack) ∧
    (∀ (name : String) (argv : List String) (st : lua_State) (f : Fault),
      dispatch W name argv st = Except.error f →
      isFunction (assoc name st.globals) = true ∧
        ∃ e, (callOn W (assoc name st.globals) argv st.globals st.heap st.log).result =
          Except.error e ∧ tostr e = none) ∧
    (∀ (nm script : String) (rest : List String) (st : lua_State) (f : Fault),
      lua W nm (script :: rest) st = Except.error f →
      ∃ ref e, W.loadstring (W.expand st.log (scriptText script)) = Except.ok ref ∧
        (callOn W (Value.func ref) rest st.globals st.heap (loadLog W script st.log)).result =
          Except.error e ∧ tostr e = none) := by
  refine ⟨?_, ?_, ?_, ?_⟩
  · intro c st r hr
    have h := invoke_stack W c st r hr
    exact ⟨by simp [lua_gettop, h], h⟩
  · intro calls st st' hr
    have h := invokeAll_stack W calls st st' hr
    exact ⟨by simp [lua_gettop, h], h⟩
  · intro name argv st f hr
    exact (dispatch_fault W name argv st f hr).2
  · intro nm script rest st f hr
    exact (lua_fault W nm script rest st f hr).2

/-- A run of C7: a call that returns a string, a call that raises, a call on an
unset name, an expression, and a script that does not compile, one after the
other. -/
theorem host_calls_restore_stack_witness :
    invokeAll exampleWorld exampleCalls exampleState = Except.ok exampleAfter ∧
      lua_gettop exampleAfter = lua_gettop exampleState ∧
      exampleAfter.stack = exampleState.stack :=
  ⟨rfl, (host_calls_restore_stack exampleWorld).2.1 exampleCalls exampleState exampleAfter rfl⟩

/-- C2.  Called on `N` string arguments, `expand` returns `N` results: the
frame it leaves holds, in the order of the arguments, the host's expansion of
each; the host's expansion engine is called once per argument, in that order
(each buffer is released after its use), and the `i`-th result is the host's
answer to the `i`-th argument. -/
theorem lua_expand_expands_each (W : World) (caller : Option gmk_floc) (ss : List String)
    (g : List (String × Value)) (h : List Table) (log : List Event) :
    callC W caller CFunction.lua_expand ⟨ss.map Value.string, g, h, log⟩ =
        Except.ok (ss.length,
          ⟨(expansions W log ss).map Value.string, g, h, log ++ expandLog W log ss⟩) ∧
      results ss.length
          ⟨(expansions W log ss).map Value.string, g, h, log ++ expandLog W log ss⟩ =
        (expansions W log ss).map Value.string ∧
      (expansions W log ss).length = ss.length ∧
      (∀ i, (expansions W log ss)[i]? =
        (ss[i]?).map (W.expand (log ++ expandLog W log (ss.take i)))) ∧
      expandedTexts (expandLog W log ss) = ss := by
  refine ⟨?_, ?_, expansions_length W ss log, expansions_getElem? W ss log,
    expandedTexts_expandLog W ss log⟩
  · have hloop := lua_expand_loop_eq W g h ss [] log
    simp only [List.length_nil, Nat.zero_add, List.nil_append] at hloop
    simp only [callC, lua_expand, lua_gettop, List.length_map, hloop]
  · simp [results, expansions_length]

/-- The state the setup leaves: an empty stack, the four globals, two new
tables (the one bound to `make` and its metatable), and the registration of the
ad-hoc evaluator. -/
theorem lua_make_gmk_setup_eq (W : World) (log : List Event) :
    lua_make_gmk_setup W log =
      Except.ok (1,
        ⟨[],
         ("make", Value.table W.newstate.2.length) ::
           ("expand", Value.cfunction CFunction.lua_expand) ::
           ("export", Value.cfunction CFunction.lua_export) ::
           ("eval", Value.cfunction CFunction.lua_eval) :: W.newstate.1,
         W.newstate.2 ++
           [{ fields := [], metatable := some (W.newstate.2.length + 1) },
            { fields := [("__index", Value.cfunction CFunction.lua_lookup)],
              metatable := none }],
         log ++ [Event.gmk_add_function "lua" HostFn.lua 1 8 GMK_FUNC_NOEXPAND]⟩) := by
  unfold lua_make_gmk_setup
  generalize W.newstate.1 = g0
  generalize W.newstate.2 = h0
  have i2 : index2addr 3 ((2 : Nat) : Int) = some 1 := by decide
  have i1 : index2addr 2 ((1 : Nat) : Int) = some 0 := by decide
  have e1 : ∀ a b : Table, h0 ++ [a] ++ [b] = h0 ++ a :: b :: [] := by
    intro a b; simp
  have l1 : ∀ a : Table, (h0 ++ [a]).length = h0.length + 1 := by
    intro a; simp
  simp only [lua_newtable, lua_pushcfunction, push, lua_setglobal,
    lua_gettop, lua_setfield, lua_setmetatable, index2value, gmk_add_function,
    List.nil_append, List.length_nil, List.singleton_append, List.cons_append,
    List.getLast?, List.getLast, List.dropLast, List.length_cons, List.length_singleton,
    Nat.zero_add, Nat.reduceAdd, i1, i2, List.getElem?_cons_zero, List.getElem?_cons_succ,
    e1, l1, getElem?_at_length_succ, set_at_length_succ, getElem?_at_length, set_at_length]

/-- C3.  Called with a table and a string key `V` (and any further arguments),
the lookup function submits the text `$(V)` to the host's expansion engine,
once, and returns one result, the expansion as a string: the empty string when
the expansion is empty.  The setup makes this function the `__index` handler of
the metatable of the (empty) table bound to the global `make`. -/
theorem lua_lookup_expands_reference (W : World) (caller : Option gmk_floc) :
    (∀ (t : Value) (V : String) (extra : List Value) (g : List (String × Value))
        (h : List Table) (log : List Event),
      callC W caller CFunction.lua_lookup ⟨t :: Value.string V :: extra, g, h, log⟩ =
        Except.ok (1,
          ⟨[Value.string (W.expand log ("$(" ++ V ++ ")"))], g, h,
           log ++ [Event.gmk_expand ("$(" ++ V ++ ")"),
                   Event.gmk_free (W.expand log ("$(" ++ V ++ ")"))]⟩)) ∧
    (∀ (t : Value) (V : String) (extra : List Value) (g : List (String × Value))
        (h : List Table) (log : List Event),
      W.expand log ("$(" ++ V ++ ")") = "" →
      callC W caller CFunction.lua_lookup ⟨t :: Value.string V :: extra, g, h, log⟩ =
        Except.ok (1,
          ⟨[Value.string ""], g, h,
           log ++ [Event.gmk_expand ("$(" ++ V ++ ")"), Event.gmk_free ""]⟩)) ∧
    (∀ log : List Event,
      ∃ (st : lua_State) (r m : Nat) (mt : Table),
        lua_make_gmk_setup W log = Except.ok (1, st) ∧
        assoc "make" st.globals = Value.table r ∧
        st.heap[r]? = some { fields := [], metatable := some m } ∧
        st.heap[m]? = some mt ∧
        assoc "__index" mt.fields = Value.cfunction CFunction.lua_lookup) := by
  have hmain : ∀ (t : Value) (V : String) (extra : List Value) (g : List (String × Value))
      (h : List Table) (log : List Event),
      callC W caller CFunction.lua_lookup ⟨t :: Value.string V :: extra, g, h, log⟩ =
        Except.ok (1,
          ⟨[Value.string (W.expand log ("$(" ++ V ++ ")"))], g, h,
           log ++ [Event.gmk_expand ("$(" ++ V ++ ")"),
                   Event.gmk_free (W.expand log ("$(" ++ V ++ ")"))]⟩) := by
    intro t V extra g h log
    have h1 : lua_tolstring ⟨t :: Value.string V :: extra, g, h, log⟩ (2 : Int) =
        (some V, V.length, ⟨t :: Value.string V :: extra, g, h, log⟩) :=
      lua_tolstring_pos [t] extra (Value.string V) g h log
    have h2 : index2addr 3 2 = some 1 := by decide
    have h3 := lua_concat_three [t] "$(" V ")" g h log
    have h4 := lua_tostring_top [t] (Value.string ("$(" ++ V ++ ")")) g h log
    simp only [List.singleton_append, tostr] at h3 h4
    simp [callC, lua_lookup, luaL_checkstring, h1, lua_settop, lua_pushliteral, push,
      lua_insert, h2, h3, h4, gmk_expand, lua_pushstring, gmk_free]
  refine ⟨hmain, ?_, ?_⟩
  · intro t V extra g h log hempty
    rw [hmain, hempty]
  · intro log
    refine ⟨_, W.newstate.2.length, W.newstate.2.length + 1,
      { fields := [("__index", Value.cfunction CFunction.lua_lookup)], metatable := none },
      lua_make_gmk_setup_eq W log, ?_, ?_, ?_, ?_⟩
    · simp [assoc]
    · exact getElem?_at_length _ _ _
    · exact getElem?_at_length_succ _ _ _ _
    · simp [assoc]

/-- A run of C3: the key `CC` yields `gcc`, and the key of an unset variable
yields the empty string. -/
theorem lua_lookup_expands_reference_witness :
    callC exampleWorld none CFunction.lua_lookup
        ⟨[Value.table 0, Value.string "CC"], [], [], []⟩ =
      Except.ok (1, ⟨[Value.string "gcc"], [], [],
        [Event.gmk_expand "$(CC)", Event.gmk_free "gcc"]⟩) ∧
    callC exampleWorld none CFunction.lua_lookup
        ⟨[Value.table 0, Value.string "UNSET", Value.nil], [], [], []⟩ =
      Except.ok (1, ⟨[Value.string ""], [], [],
        [Event.gmk_expand "$(UNSET)", Event.gmk_free ""]⟩) :=
  ⟨(lua_lookup_expands_reference exampleWorld none).1 (Value.table 0) "CC" [] [] [] [],
   (lua_lookup_expands_reference exampleWorld none).2.1 (Value.table 0) "UNSET" [Value.nil]
     [] [] [] rfl⟩

/-- C8.  The script call `export(name, fn)` binds `fn` to the global `name` and
registers `name` with the host as a function routed to `dispatch`, with at
least 1 and at most 8 arguments and the flag that keeps the host from
expanding them; both are done by the one call, which returns no value.  It
holds for every name and every value `fn`, so for every non-empty name and
every callable value. -/
theorem lua_export_binds_and_registers (W : World) (caller : Option gmk_floc) (name : String)
    (fn : Value) (g : List (String × Value)) (h : List Table) (log : List Event) :
    callC W caller CFunction.lua_export ⟨[Value.string name, fn], g, h, log⟩ =
        Except.ok (0,
          ⟨[], (name, fn) :: g, h,
           log ++ [Event.gmk_add_function name HostFn.dispatch 1 8 GMK_FUNC_NOEXPAND]⟩) ∧
      assoc name ((name, fn) :: g) = fn ∧
      (lua_getglobal ⟨[], (name, fn) :: g, h,
        log ++ [Event.gmk_add_function name HostFn.dispatch 1 8 GMK_FUNC_NOEXPAND]⟩ name).stack =
        [fn] ∧
      results 0 ⟨[], (name, fn) :: g, h,
        log ++ [Event.gmk_add_function name HostFn.dispatch 1 8 GMK_FUNC_NOEXPAND]⟩ = [] ∧
      GMK_FUNC_NOEXPAND = 1 := by
  have h1 : lua_tostring ⟨[Value.string name, fn], g, h, log⟩ (1 : Int) =
      (some name, ⟨[Value.string name, fn], g, h, log⟩) :=
    lua_tostring_pos [] [fn] (Value.string name) g h log
  refine ⟨?_, ?_, ?_, ?_, rfl⟩
  · simp [callC, lua_export, h1, lua_setglobal, gmk_add_function, lua_settop]
  · simp [assoc]
  · simp [lua_getglobal, push, assoc]
  · simp [results]

/-- The closed form of `eval` on a frame with at least one value: the last
value decides, and the location handed to the host is the one the interpreter
reports for the caller. -/
theorem lua_eval_eq (caller : Option gmk_floc) (below : List Value) (v : Value)
    (g : List (String × Value)) (h : List Table) (log : List Event) :
    lua_eval caller ⟨below ++ [v], g, h, log⟩ =
      (0, ⟨[], g, h,
        log ++ (match tostr v with
                | some s => [Event.gmk_eval s caller]
                | none => [])⟩) := by
  simp only [lua_eval, lua_tostring_top]
  cases hv : tostr v with
  | none => simp [lua_settop]
  | some s => cases caller <;> simp [lua_settop, gmk_eval]

/-- C9, as amended.  The script function `eval` submits the string conversion
of its last argument to the host's statement evaluator, once and verbatim, with
the location of its caller, whenever that argument is a string (the empty
string included) or a number; it does not call the evaluator when there is no
argument or when the last argument has no string conversion.  In every case it
returns no value and leaves an empty frame. -/
theorem lua_eval_submits_every_string (caller : Option gmk_floc) :
    (∀ (s : String) (g : List (String × Value)) (h : List Table) (log : List Event),
      lua_eval caller ⟨[Value.string s], g, h, log⟩ =
        (0, ⟨[], g, h, log ++ [Event.gmk_eval s caller]⟩)) ∧
    (∀ (g : List (String × Value)) (h : List Table) (log : List Event),
      lua_eval caller ⟨[], g, h, log⟩ = (0, ⟨[], g, h, log⟩)) ∧
    (∀ (below : List Value) (v : Value) (g : List (String × Value)) (h : List Table)
        (log : List Event),
      lua_eval caller ⟨below ++ [v], g, h, log⟩ =
        (0, ⟨[], g, h,
          log ++ (match tostr v with
                  | some s => [Event.gmk_eval s caller]
                  | none => [])⟩)) ∧
    (∀ st : lua_State,
      (lua_eval caller st).1 = 0 ∧ (lua_eval caller st).2.stack = [] ∧
        results (lua_eval caller st).1 (lua_eval caller st).2 = []) := by
  refine ⟨?_, ?_, lua_eval_eq caller, ?_⟩
  · intro s g h log
    exact lua_eval_eq caller [] (Value.string s) g h log
  · intro g h log
    simp [lua_eval, lua_tostring, lua_tolstring, index2addr_top_empty, lua_settop]
  · intro st
    obtain ⟨stack, g, h, log⟩ := st
    cases hs : stack.getLast? with
    | none =>
      have : stack = [] := by simpa using hs
      subst this
      simp [lua_eval, lua_tostring, lua_tolstring, index2addr_top_empty, lua_settop, results]
    | some v =>
      have hsplit : stack = stack.dropLast ++ [v] := by
        have := List.dropLast_append_getLast? v hs
        exact this.symm
      rw [hsplit, lua_eval_eq]
      simp [results]

/-- C9 as first stated fails: called with the empty string, `eval` does call
the host's statement evaluator, with the empty text. -/
theorem lua_eval_submits_empty_string :
    lua_eval none ⟨[Value.string ""], [], [], []⟩ =
      (0, ⟨[], [], [], [Event.gmk_eval "" none]⟩) :=
  rfl

theorem snprintf_fits (size : Nat) (text : String) (hfit : text.length ≤ size - 1) :
    snprintf size text = text := by
  have : text.data.length ≤ size - 1 := hfit
  simp [snprintf, List.take_of_length_le this]

/-- A message of at most 245 bytes reaches the host whole, inside a complete
call of the host's `error` function. -/
theorem error_short_message (st : lua_State) (m : String) (hm : m.length ≤ 245) :
    error st (some m) =
      Except.ok { st with
        log := st.log ++ [Event.stderr ("error '" ++ m ++ "'\n\n"),
                          Event.gmk_eval ("$(error " ++ m ++ ")\n") none] } := by
  have hlen : ("$(error " ++ m ++ ")\n").length ≤ 256 - 1 := by
    have h1 : "$(error ".length = 8 := by decide
    have h2 : ")\n".length = 2 := by decide
    simp only [String.length_append, h1, h2]
    omega
  simp [error, snprintf_fits _ _ hlen, fprintf_stderr, gmk_eval]

set_option maxRecDepth 8000 in
/-- C10 at a message of 300 bytes: the diagnostic stream receives the whole
message, and the host's evaluator receives the first 255 bytes of the
synthesized call, which is the opening of the call and 247 bytes of the message,
without the closing parenthesis and the newline. -/
theorem error_long_message_is_cut :
    error exampleState (some (String.mk (List.replicate 300 'a'))) =
        Except.ok { exampleState with
          log := [Event.stderr ("error '" ++ String.mk (List.replicate 300 'a') ++ "'\n\n"),
                  Event.gmk_eval ("$(error " ++ String.mk (List.replicate 247 'a')) none] } ∧
      "$(error " ++ String.mk (List.replicate 247 'a') ≠
        "$(error " ++ String.mk (List.replicate 300 'a') ++ ")\n" := by
  refine ⟨rfl, ?_⟩
  decide

/-! ## The examples of the specification, run in the small world -/

/-- The ad-hoc evaluator on the expression `1+2` behind the marker: the host
receives `3`, by way of the chunk `return 1+2`. -/
theorem lua_backtick_example :
    lua exampleWorld "lua" ["`1+2"] exampleState =
      Except.ok (some "3",
        { exampleState with
          log := [Event.gmk_expand "return 1+2", Event.loadstring "return 1+2",
                  Event.pcall (Value.func 7) [], Event.gmk_alloc 2,
                  Event.gmk_free "return 1+2"] }) :=
  rfl

/-- A script that does not compile: the compiler's message goes through the
error channel, and the host receives no string. -/
theorem lua_syntax_error_example :
    lua exampleWorld "lua" ["1+", "a"] exampleState =
      Except.ok (none,
        { exampleState with
          log := [Event.gmk_expand "1+", Event.loadstring "1+",
                  Event.stderr "error 'syntax error near <eof>'\n\n",
                  Event.gmk_eval "$(error syntax error near <eof>)\n" none,
                  Event.gmk_free "1+"] }) :=
  rfl

/-- The script function `expand` on three arguments. -/
theorem lua_expand_example :
    lua_expand exampleWorld
        ⟨[Value.string "$(CC)", Value.string "-c", Value.string "$(UNSET)"], [], [], []⟩ =
      Except.ok (3,
        ⟨[Value.string "gcc", Value.string "-c", Value.string ""], [], [],
         [Event.gmk_expand "$(CC)", Event.gmk_free "gcc", Event.gmk_expand "-c",
          Event.gmk_free "-c", Event.gmk_expand "$(UNSET)", Event.gmk_free ""]⟩) :=
  rfl

end LuaMake
